import Mathlib

/-!
Shallow embedding of `scripts/resize_screenshots.py`: a batch resizer that
resizes every image file directly inside a fixed screenshots directory to
2560 × 1600 pixels, overwriting each file in place and printing one status
line per file plus a final summary.

The filesystem at the fixed target path is modelled by `Target`: missing,
an existing non-directory, or a directory with its list of direct
children.  The third-party imaging library (PIL) is not part of the
repository; following the specification's external-interface contract it
is modelled by `pilOpen` / `pilResize` / `pilSave` over abstract content
carrying pixel dimensions and an opaque payload.  A run is a `RunOutcome`:
the printed lines (kept structured, with `render` giving the exact text)
plus the directory contents afterwards, or an uncaught exception.
-/

namespace ResizeScreenshots

/-- Configuration constant `TARGET_WIDTH = 2560`. -/
def TARGET_WIDTH : Nat := 2560

/-- Configuration constant `TARGET_HEIGHT = 1600`. -/
def TARGET_HEIGHT : Nat := 1600

/-- Configuration constant `SCREENSHOTS_DIR`: the fixed target directory
path computed at startup (`Path(__file__).parent.parent / "Screenshots"`,
the `AppStore/Screenshots` directory per the script's docstring). -/
def SCREENSHOTS_DIR : String := "AppStore/Screenshots"

/-- Content of a file, at the abstraction level of the spec's imaging
contract: either bytes that decode to an image with known pixel
dimensions (the pixel data itself is an opaque payload), or bytes that
the imaging library fails to decode, raising the stored message. -/
inductive Content where
  | image (w : Nat) (h : Nat) (payload : Nat) : Content
  | undecodable (msg : String) (payload : Nat) : Content
deriving DecidableEq

/-- A direct child of the target directory: its final path component
(`Path.name`), whether it is a regular file (`Path.is_file()`), an
optional write error (`some msg` means any attempt to overwrite this
entry raises `msg`, modelling a write failure), and its content. -/
structure Entry where
  name : String
  isFile : Bool
  writeErr : Option String
  content : Content
deriving DecidableEq

/-- An in-memory image handle as exposed by the imaging library:
pixel dimensions (`img.size`) plus the opaque pixel payload. -/
structure PILImage where
  width : Nat
  height : Nat
  payload : Nat
deriving DecidableEq

/-- Modelled from the spec: the external imaging library's
`open(path) → image-with-dimensions` (PIL is not part of the repository).
Decodable content yields an image with the stored dimensions;
undecodable content raises its stored message. -/
def pilOpen : Content → Except String PILImage
  | .image w h p => .ok ⟨w, h, p⟩
  | .undecodable msg _ => .error msg

/-- Modelled from the spec: the external imaging library's
`resize(image, width, height, filter)` with the LANCZOS filter.  The
result has exactly the requested dimensions; resampled pixel data is
abstracted into the payload. -/
def pilResize (img : PILImage) (w h : Nat) : PILImage :=
  ⟨w, h, img.payload⟩

/-- Modelled from the spec: the external imaging library's
`save(image, path, quality=95, optimize=True)`, overwriting the entry's
content in place.  An entry with a recorded write error raises it and
leaves the file unchanged. -/
def pilSave (img : PILImage) (e : Entry) : Except String Entry :=
  match e.writeErr with
  | some msg => .error msg
  | none => .ok { e with content := .image img.width img.height img.payload }

/-- One string printed by the script, kept structured; `render` gives the
exact text. -/
inductive OutLine where
  | dirMissing (path : String)
  | found (n : Nat)
  | resizingTo (w h : Nat)
  | noImages
  | okFile (name : String) (ow oh nw nh : Nat)
  | errFile (name : String) (msg : String)
  | summary (succ total : Nat)
deriving DecidableEq

/-- Text of a Python tuple `(w, h)` as interpolated into an f-string. -/
def fmtSize (w h : Nat) : String :=
  "(" ++ toString w ++ ", " ++ toString h ++ ")"

/-- Exact text of each printed line (f-strings of the script). -/
def render : OutLine → String
  | .dirMissing p => "Error: Directory " ++ p ++ " not found"
  | .found n => "Found " ++ toString n ++ " image(s)"
  | .resizingTo w h => "Resizing to " ++ toString w ++ " × " ++ toString h ++ "px\n"
  | .noImages => "No image files found"
  | .okFile n ow oh nw nh => "✓ " ++ n ++ ": " ++ fmtSize ow oh ++ " → " ++ fmtSize nw nh
  | .errFile n msg => "✗ " ++ n ++ ": Error - " ++ msg
  | .summary s t => "\nCompleted: " ++ toString s ++ "/" ++ toString t ++ " images resized"

/-- Result of `resize_image` on one file: the returned boolean, the one
status line it prints, and the entry as left on disk afterwards. -/
structure FileResult where
  success : Bool
  line : OutLine
  entry : Entry
deriving DecidableEq

/-- Embedding of `resize_image(image_path)`: open, capture the original
size, resize to the target dimensions, save back to the same file and
report success; any exception raised on the way is caught, reported with
the file's name, and turned into a `False` return, the file keeping its
previous content. -/
def resize_image (e : Entry) : FileResult :=
  match pilOpen e.content with
  | .error msg => ⟨false, .errFile e.name msg, e⟩
  | .ok img =>
    let original_size := (img.width, img.height)
    let img_resized := pilResize img TARGET_WIDTH TARGET_HEIGHT
    match pilSave img_resized e with
    | .error msg => ⟨false, .errFile e.name msg, e⟩
    | .ok e' =>
      ⟨true, .okFile e.name original_size.1 original_size.2 TARGET_WIDTH TARGET_HEIGHT, e'⟩

/-- Index of the last occurrence of `'.'` in a list of characters
(Python's `str.rfind('.')`, with `none` for "not found"). -/
def lastDotIdx (cs : List Char) : Option Nat :=
  cs.enum.foldl (fun acc ic => if ic.2 = '.' then some ic.1 else acc) none

/-- CPython's `pathlib.PurePath.suffix` on a final path component:
`name[i:]` when the index `i` of the last dot satisfies
`0 < i < len(name) - 1`, and the empty string otherwise (so dotfiles
like `".png"` and trailing-dot names have no suffix). -/
def pySuffix (name : String) : String :=
  let cs := name.toList
  match lastDotIdx cs with
  | none => ""
  | some i => if 0 < i ∧ i < cs.length - 1 then String.mk (cs.drop i) else ""

/-- ASCII fragment of Python's `str.lower()` on one character: uppercase
ASCII letters are shifted to lowercase, everything else is unchanged.
This is extensionally adequate here because the lowered suffix is only
ever compared against the all-ASCII allow-set. -/
def pyCharLower (c : Char) : Char :=
  if 65 ≤ c.toNat ∧ c.toNat ≤ 90 then Char.ofNat (c.toNat + 32) else c

/-- Python's `str.lower()` (ASCII fragment, see `pyCharLower`). -/
def pyLower (s : String) : String :=
  String.mk (s.toList.map pyCharLower)

/-- The literal allow-set `image_extensions` of the script. -/
def image_extensions : List String :=
  [".png", ".jpg", ".jpeg", ".gif", ".bmp"]

/-- The enumeration filter of `main`:
`f.is_file() and f.suffix.lower() in image_extensions`. -/
def isCandidate (e : Entry) : Bool :=
  e.isFile && image_extensions.contains (pyLower (pySuffix e.name))

/-- Lexicographic comparison of character lists by code point:
Python's `<=` on strings. -/
def strLe : List Char → List Char → Bool
  | [], _ => true
  | _ :: _, [] => false
  | a :: as, b :: bs =>
    if a.toNat < b.toNat then true
    else if b.toNat < a.toNat then false
    else strLe as bs

/-- Order used by Python's `sorted` on same-directory paths: lexicographic
comparison of the final components. -/
def nameRel (a b : Entry) : Prop :=
  strLe a.name.toList b.name.toList = true

instance nameRel.decidable : DecidableRel nameRel := fun a b =>
  inferInstanceAs (Decidable (strLe a.name.toList b.name.toList = true))

/-- Effect of one run on one directory entry: candidates are replaced by
whatever `resize_image` leaves on disk, every other entry is untouched. -/
def runEntry (e : Entry) : Entry :=
  if isCandidate e then (resize_image e).entry else e

/-- Candidates in the order `sorted(image_files)` processes them:
Python's `sorted` is a stable ascending sort, which insertion sort by the
same order reproduces exactly. -/
def sortedCandidates (es : List Entry) : List Entry :=
  (es.filter isCandidate).insertionSort nameRel

/-- State of the filesystem at the fixed target path: nothing there, an
existing entry that is not a directory (e.g. a regular file), or a
directory with its list of direct children. -/
inductive Target where
  | missing
  | nonDir
  | dir (entries : List Entry)
deriving DecidableEq

/-- `Path.exists()` of the target path: true for any existing entry,
directory or not. -/
def pyExists : Target → Bool
  | .missing => false
  | .nonDir => true
  | .dir _ => true

/-- Whether the target path exists and is a directory (the precondition
the spec talks about; the script itself only checks `pyExists`). -/
def existsAsDir : Target → Bool
  | .dir _ => true
  | _ => false

/-- How a run ends: a normal return from `main` with everything it
printed and the directory contents afterwards, or an uncaught exception
(named by its Python type) after printing the listed lines. -/
inductive RunOutcome where
  | normal (out : List OutLine) (dirAfter : Option (List Entry))
  | exc (out : List OutLine) (excName : String)
deriving DecidableEq

/-- Lines printed by the run, whether or not it crashed. -/
def RunOutcome.lines : RunOutcome → List OutLine
  | .normal out _ => out
  | .exc out _ => out

/-- Directory contents after a normal run. -/
def RunOutcome.dirAfter : RunOutcome → Option (List Entry)
  | .normal _ d => d
  | .exc _ _ => none

/-- Embedding of `main()` over the state of the target path.
When `Path.exists()` is false the guard prints the diagnostic and
returns.  When the path exists but is not a directory the guard passes
and the list comprehension over `iterdir()` raises `NotADirectoryError`
(documented `pathlib` behaviour, modelled here since `pathlib` is
external), which nothing catches: the run dies before printing anything.
On a directory, files are enumerated, filtered, sorted and processed as
in the script. -/
def main (t : Target) : RunOutcome :=
  match t with
  | .missing => .normal [.dirMissing SCREENSHOTS_DIR] none
  | .nonDir => .exc [] "NotADirectoryError"
  | .dir entries =>
    let image_files := entries.filter isCandidate
    if image_files.isEmpty then
      .normal [.noImages] (some entries)
    else
      let results := (image_files.insertionSort nameRel).map resize_image
      let success_count := (results.filter (·.success)).length
      .normal
        ([.found image_files.length, .resizingTo TARGET_WIDTH TARGET_HEIGHT]
            ++ results.map (·.line)
            ++ [.summary success_count image_files.length])
        (some (entries.map runEntry))

/-- Pixel dimensions stored in an entry's content, when it is an image. -/
def entryDims (e : Entry) : Option (Nat × Nat) :=
  match e.content with
  | .image w h _ => some (w, h)
  | .undecodable _ _ => none

/-- The exception, if any, that processing this entry raises inside the
`try` block of `resize_image`: a decode error from `open`, else a write
error from `save`. -/
def perFileError (e : Entry) : Option String :=
  match e.content with
  | .undecodable msg _ => some msg
  | .image _ _ _ => e.writeErr

/-- Number of candidates found by the enumeration (the `M` of the
summary line). -/
def candTotal (es : List Entry) : Nat :=
  (es.filter isCandidate).length

/-- Number of candidates whose resize succeeds (the `N` of the summary
line). -/
def okCount (es : List Entry) : Nat :=
  ((es.filter isCandidate).filter (fun c => (resize_image c).success)).length

/-- Number of candidates whose resize fails. -/
def failCount (es : List Entry) : Nat :=
  ((es.filter isCandidate).filter (fun c => !(resize_image c).success)).length

/-- File name a printed line refers to, when it refers to one. -/
def lineName : OutLine → Option String
  | .okFile n _ _ _ _ => some n
  | .errFile n _ => some n
  | _ => none

/-- Whether a printed line is the final summary line. -/
def isSummary : OutLine → Bool
  | .summary _ _ => true
  | _ => false

/-- Default entry used with `List.getD` to phrase positional statements. -/
def dfltEntry : Entry :=
  ⟨"", false, none, .image 0 0 0⟩

/-! Concrete directory entries used as evaluation witnesses. -/

/-- A decodable 800 × 600 image called `a.png`. -/
def entA : Entry := ⟨"a.png", true, none, .image 800 600 7⟩

/-- What is on disk in place of `entA` after a successful run. -/
def entA2 : Entry := ⟨"a.png", true, none, .image 2560 1600 7⟩

/-- A corrupt file called `b.jpg`: decoding raises `"broken"`. -/
def entB : Entry := ⟨"b.jpg", true, none, .undecodable "broken" 3⟩

/-- A non-image file called `b.txt`. -/
def entTxt : Entry := ⟨"b.txt", true, none, .image 10 10 1⟩

/-- A dotfile whose entire name is an allowed extension. -/
def entDot : Entry := ⟨".png", true, none, .image 5 5 0⟩

/-! Helper lemmas about `strLe` and the processing order. -/

theorem strLe_total : ∀ a b : List Char, strLe a b = true ∨ strLe b a = true
  | [], _ => Or.inl rfl
  | _ :: _, [] => Or.inr rfl
  | a :: as, b :: bs => by
    by_cases h1 : a.toNat < b.toNat
    · left; simp [strLe, h1]
    · by_cases h2 : b.toNat < a.toNat
      · right; simp [strLe, h2]
      · rcases strLe_total as bs with h | h
        · left; simp [strLe, h1, h2, h]
        · right; simp [strLe, h1, h2, h]

theorem strLe_trans : ∀ {a b c : List Char},
    strLe a b = true → strLe b c = true → strLe a c = true
  | [], _, _, _, _ => rfl
  | _ :: _, [], _, hab, _ => by simp [strLe] at hab
  | _ :: _, _ :: _, [], _, hbc => by simp [strLe] at hbc
  | a :: as, b :: bs, c :: cs, hab, hbc => by
    have ih := @strLe_trans as bs cs
    by_cases h1 : a.toNat < b.toNat <;> by_cases h2 : b.toNat < c.toNat <;>
      simp only [strLe, h1, h2, if_pos, if_neg, if_true, if_false] at hab hbc ⊢ <;>
      by_cases h3 : b.toNat < a.toNat <;> by_cases h4 : c.toNat < b.toNat <;>
      simp_all <;> omega

instance : IsTotal Entry nameRel :=
  ⟨fun a b => strLe_total a.name.toList b.name.toList⟩

instance : IsTrans Entry nameRel :=
  ⟨fun _ _ _ => strLe_trans⟩

/-! Helper lemmas about `resize_image`, `runEntry` and `main`. -/

theorem resize_entry_fields (e : Entry) :
    (resize_image e).entry.name = e.name ∧
    (resize_image e).entry.isFile = e.isFile ∧
    (resize_image e).entry.writeErr = e.writeErr := by
  rcases e with ⟨n, fl, w, c⟩
  cases c <;> cases w <;> simp [resize_image, pilOpen, pilResize, pilSave]

theorem resize_image_err (e : Entry) (msg : String)
    (hmsg : perFileError e = some msg) :
    resize_image e = ⟨false, .errFile e.name msg, e⟩ := by
  rcases e with ⟨n, fl, w, c⟩
  cases c <;> cases w <;>
    simp_all [perFileError, resize_image, pilOpen, pilResize, pilSave]

theorem entryDims_resize_success (e : Entry)
    (hs : (resize_image e).success = true) :
    entryDims (resize_image e).entry = some (TARGET_WIDTH, TARGET_HEIGHT) := by
  rcases e with ⟨n, fl, w, c⟩
  cases c <;> cases w <;>
    simp_all [resize_image, pilOpen, pilResize, pilSave, entryDims]

theorem isCandidate_resize_entry (e : Entry) :
    isCandidate (resize_image e).entry = isCandidate e := by
  unfold isCandidate
  rw [(resize_entry_fields e).1, (resize_entry_fields e).2.1]

theorem runEntry_runEntry (e : Entry) : runEntry (runEntry e) = runEntry e := by
  by_cases hc : isCandidate e = true
  · rcases e with ⟨n, fl, w, c⟩
    cases c <;> cases w <;>
      simp_all [runEntry, resize_image, pilOpen, pilResize, pilSave,
        isCandidate_resize_entry]
  · simp [runEntry, hc]

theorem lineName_resize (c : Entry) :
    lineName (resize_image c).line = some c.name := by
  rcases c with ⟨n, fl, w, ct⟩
  cases ct <;> cases w <;>
    simp [resize_image, pilOpen, pilResize, pilSave, lineName]

theorem isSummary_resize (c : Entry) :
    isSummary (resize_image c).line = false := by
  rcases c with ⟨n, fl, w, ct⟩
  cases ct <;> cases w <;>
    simp [resize_image, pilOpen, pilResize, pilSave, isSummary]

theorem main_snd (es : List Entry) :
    (main (.dir es)).dirAfter = some (es.map runEntry) := by
  unfold main
  by_cases h : (es.filter isCandidate).isEmpty
  · simp only [h, if_true]
    have hnil : es.filter isCandidate = [] := List.isEmpty_iff.mp h
    have hid : ∀ e ∈ es, runEntry e = e := by
      intro e he
      have hf : ¬ isCandidate e = true :=
        List.filter_eq_nil_iff.mp hnil e he
      simp [runEntry, hf]
    have : es.map runEntry = es.map id := List.map_congr_left fun a ha => hid a ha
    simp [this, RunOutcome.dirAfter]
  · simp [h, RunOutcome.dirAfter]

theorem processed_filter_length (p : FileResult → Bool) (es : List Entry) :
    ((((es.filter isCandidate).insertionSort nameRel).map resize_image).filter p).length
      = ((es.filter isCandidate).filter (fun c => p (resize_image c))).length := by
  rw [List.filter_map, List.length_map]
  have hperm :=
    (List.perm_insertionSort nameRel (es.filter isCandidate)).filter
      (fun c => p (resize_image c))
  simpa [Function.comp] using hperm.length_eq

theorem main_fst (es : List Entry) (h : es.filter isCandidate ≠ []) :
    (main (.dir es)).lines =
      [.found (candTotal es), .resizingTo TARGET_WIDTH TARGET_HEIGHT]
        ++ (sortedCandidates es).map (fun c => (resize_image c).line)
        ++ [.summary (okCount es) (candTotal es)] := by
  have hne : ¬ (es.filter isCandidate).isEmpty = true := by
    simpa [List.isEmpty_iff] using h
  unfold main
  simp only [hne, if_false]
  rw [List.map_map]
  have hcount := processed_filter_length (fun r => r.success) es
  unfold candTotal okCount sortedCandidates
  simp [hcount, Function.comp, RunOutcome.lines]

theorem contains_ext_iff (s : String) :
    image_extensions.contains s = true ↔ s ∈ image_extensions :=
  List.elem_iff

/-! Claim theorems. -/

/-- C3 counterexample: a target path that exists but is not a directory
also "does not exist as a directory", yet the run neither emits the
missing-path diagnostic nor terminates cleanly before enumeration: the
`Path.exists()` guard passes and the enumeration raises an uncaught
`NotADirectoryError`, printing nothing. -/
theorem C3_counterexample :
    existsAsDir Target.nonDir = false ∧
    main Target.nonDir ≠ .normal [.dirMissing SCREENSHOTS_DIR] none ∧
    main Target.nonDir = .exc [] "NotADirectoryError" := by
  refine ⟨rfl, ?_, rfl⟩
  intro h
  exact RunOutcome.noConfusion h

/-- C3 (amended): when the target path does not exist at all, the
program emits a single diagnostic line referencing the missing path
(rendered as `Error: Directory AppStore/Screenshots not found`) and
terminates normally without enumerating or resizing anything: the whole
run's output is that one line and no directory contents result. -/
theorem C3_missing_dir_fatal :
    main Target.missing = .normal [.dirMissing SCREENSHOTS_DIR] none ∧
    render (.dirMissing SCREENSHOTS_DIR)
      = "Error: Directory AppStore/Screenshots not found" :=
  ⟨rfl, by decide⟩

/-- C4: the candidate set is exactly the direct children that are regular
files whose lower-cased extension is in the fixed allow-set
`{.png, .jpg, .jpeg, .gif, .bmp}`, and when this set is empty the run
emits the `No image files found` diagnostic and terminates with the
directory untouched. -/
theorem C4_candidate_set (es : List Entry) :
    (∀ e ∈ es,
        (e ∈ es.filter isCandidate ↔
          (e.isFile = true ∧
            pyLower (pySuffix e.name)
              ∈ ([".png", ".jpg", ".jpeg", ".gif", ".bmp"] : List String)))) ∧
    (es.filter isCandidate = [] →
        main (.dir es) = .normal [.noImages] (some es)) := by
  constructor
  · intro e he
    rw [List.mem_filter]
    simp only [he, true_and, isCandidate, Bool.and_eq_true]
    rw [contains_ext_iff]
    rfl
  · intro h
    have hempty : (es.filter isCandidate).isEmpty = true := by simp [h]
    unfold main
    simp [hempty]

theorem C4_witness :
    main (.dir [entTxt]) = .normal [.noImages] (some [entTxt]) ∧
    (entTxt ∈ ([entTxt] : List Entry).filter isCandidate ↔
      (entTxt.isFile = true ∧
        pyLower (pySuffix entTxt.name)
          ∈ ([".png", ".jpg", ".jpeg", ".gif", ".bmp"] : List String))) :=
  ⟨(C4_candidate_set [entTxt]).2 (by decide),
   (C4_candidate_set [entTxt]).1 entTxt (by decide)⟩

/-- C10: a direct child whose entire name is a dot followed by an allowed
extension (e.g. exactly `.png`) has an empty extracted suffix, is not a
candidate, is left unmodified by a run, and is excluded from the
candidate total. -/
theorem C10_dotfile_skipped (e : Entry)
    (h : e.name ∈ ([".png", ".jpg", ".jpeg", ".gif", ".bmp"] : List String)) :
    pySuffix e.name = "" ∧
    isCandidate e = false ∧
    runEntry e = e ∧
    ∀ es : List Entry, e ∉ es.filter isCandidate := by
  have hs : pySuffix e.name = "" := by
    simp only [List.mem_cons, List.not_mem_nil, or_false] at h
    rcases h with h | h | h | h | h <;> rw [h] <;> decide
  have hcont : image_extensions.contains (pyLower "") = false := by decide
  have hc : isCandidate e = false := by
    unfold isCandidate
    rw [hs, hcont, Bool.and_false]
  refine ⟨hs, hc, by simp [runEntry, hc], ?_⟩
  intro es hmem
  have := (List.mem_filter.mp hmem).2
  rw [hc] at this
  exact Bool.false_ne_true this

theorem C10_witness :
    pySuffix entDot.name = "" ∧
    isCandidate entDot = false ∧
    runEntry entDot = entDot ∧
    entDot ∉ ([entDot] : List Entry).filter isCandidate := by
  have h := C10_dotfile_skipped entDot (by decide)
  exact ⟨h.1, h.2.1, h.2.2.1, h.2.2.2 [entDot]⟩

/-- C1: every candidate file whose per-file resize succeeds is
overwritten in place: after the run the entry at its position holds the
same filename (hence the same extension) and its pixel dimensions equal
the fixed target 2560 × 1600. -/
theorem C1_success_resized_in_place (es : List Entry) (out : List OutLine)
    (es' : List Entry) (hrun : main (.dir es) = .normal out (some es'))
    (i : Nat) (hi : i < es.length)
    (hc : isCandidate (es.getD i dfltEntry) = true)
    (hs : (resize_image (es.getD i dfltEntry)).success = true) :
    es'.length = es.length ∧
    (es'.getD i dfltEntry).name = (es.getD i dfltEntry).name ∧
    pySuffix (es'.getD i dfltEntry).name = pySuffix (es.getD i dfltEntry).name ∧
    entryDims (es'.getD i dfltEntry) = some (TARGET_WIDTH, TARGET_HEIGHT) := by
  have hfs : es' = es.map runEntry := by
    have h2 := main_snd es
    rw [hrun] at h2
    exact Option.some.inj h2
  subst hfs
  have hlen : (es.map runEntry).length = es.length := List.length_map es runEntry
  have hi' : i < (es.map runEntry).length := by rw [hlen]; exact hi
  have hget : (es.map runEntry).getD i dfltEntry = runEntry (es.getD i dfltEntry) := by
    rw [List.getD_eq_getElem _ _ hi', List.getD_eq_getElem _ _ hi, List.getElem_map]
  have hrune : runEntry (es.getD i dfltEntry) = (resize_image (es.getD i dfltEntry)).entry := by
    unfold runEntry
    rw [hc, if_pos rfl]
  refine ⟨hlen, ?_, ?_, ?_⟩
  · rw [hget, hrune, (resize_entry_fields _).1]
  · rw [hget, hrune, (resize_entry_fields _).1]
  · rw [hget, hrune]
    exact entryDims_resize_success _ hs

theorem C1_witness :
    ([entA2] : List Entry).length = ([entA] : List Entry).length ∧
    (([entA2] : List Entry).getD 0 dfltEntry).name
      = (([entA] : List Entry).getD 0 dfltEntry).name ∧
    pySuffix (([entA2] : List Entry).getD 0 dfltEntry).name
      = pySuffix (([entA] : List Entry).getD 0 dfltEntry).name ∧
    entryDims (([entA2] : List Entry).getD 0 dfltEntry)
      = some (TARGET_WIDTH, TARGET_HEIGHT) :=
  C1_success_resized_in_place [entA]
    [.found 1, .resizingTo 2560 1600, .okFile "a.png" 800 600 2560 1600, .summary 1 1]
    [entA2] (by decide) 0 (by decide) (by decide) (by decide)

/-- C2: any failure raised while processing one candidate (a decode
error or a write error) is caught at single-file granularity: the
per-file operation returns `false`, prints the file's name with the
underlying error text, leaves the file unchanged, and the batch still
emits a status line for every candidate. -/
theorem C2_per_file_error_caught (e : Entry) (msg : String)
    (hmsg : perFileError e = some msg) (es : List Entry) :
    (resize_image e).success = false ∧
    (resize_image e).line = .errFile e.name msg ∧
    (resize_image e).entry = e ∧
    ∀ out es', main (.dir es) = .normal out (some es') →
      ∀ c ∈ es.filter isCandidate, (resize_image c).line ∈ out := by
  have herr := resize_image_err e msg hmsg
  refine ⟨by rw [herr], by rw [herr], by rw [herr], ?_⟩
  intro out es' hrun c hcmem
  have hne : es.filter isCandidate ≠ [] := by
    intro hnil
    rw [hnil] at hcmem
    exact List.not_mem_nil c hcmem
  have hout : out = (main (.dir es)).lines := by rw [hrun]; rfl
  rw [hout, main_fst es hne]
  have hcs : c ∈ sortedCandidates es := by
    unfold sortedCandidates
    exact (List.mem_insertionSort nameRel).mpr hcmem
  have : (resize_image c).line
      ∈ (sortedCandidates es).map (fun c => (resize_image c).line) :=
    List.mem_map.mpr ⟨c, hcs, rfl⟩
  simp only [List.mem_append]
  exact Or.inl (Or.inr this)

theorem C2_witness :
    (resize_image entB).success = false ∧
    (resize_image entB).line = .errFile "b.jpg" "broken" ∧
    (resize_image entB).entry = entB ∧
    (resize_image entB).line
      ∈ ([.found 1, .resizingTo 2560 1600, .errFile "b.jpg" "broken",
          .summary 0 1] : List OutLine) := by
  have h := C2_per_file_error_caught entB "broken" rfl [entB]
  exact ⟨h.1, h.2.1, h.2.2.1,
    h.2.2.2 [.found 1, .resizingTo 2560 1600, .errFile "b.jpg" "broken", .summary 0 1]
      [entB] (by decide) entB (by decide)⟩

theorem out_lineName (es : List Entry) (l : OutLine) (n : String)
    (hl : l ∈ (main (.dir es)).lines) (hn : lineName l = some n) :
    ∃ c ∈ es.filter isCandidate, c.name = n := by
  by_cases hnil : es.filter isCandidate = []
  · have hempty : (es.filter isCandidate).isEmpty = true := by simp [hnil]
    unfold main at hl
    simp only [hempty, if_true, RunOutcome.lines, List.mem_singleton] at hl
    subst hl
    simp [lineName] at hn
  · rw [main_fst es hnil] at hl
    rcases List.mem_append.mp hl with h12 | hsum
    · rcases List.mem_append.mp h12 with hhd | hmap
      · simp only [List.mem_cons, List.not_mem_nil, or_false] at hhd
        rcases hhd with rfl | rfl <;> simp [lineName] at hn
      · rcases List.mem_map.mp hmap with ⟨c, hcmem, hcl⟩
        rw [← hcl, lineName_resize] at hn
        exact ⟨c, (List.mem_insertionSort nameRel).mp hcmem, Option.some.inj hn⟩
    · simp only [List.mem_singleton] at hsum
      subst hsum
      simp [lineName] at hn

/-- C5: a file in the target directory whose lower-cased extension is
not in the allow-set is left unmodified by the run (every entry is
mapped by `runEntry`, which fixes non-candidates), is not part of the
candidate set that is counted, and no output line refers to its name. -/
theorem C5_non_allowed_untouched (es : List Entry) (e : Entry) (_he : e ∈ es)
    (hext : pyLower (pySuffix e.name) ∉ image_extensions)
    (out : List OutLine) (es' : List Entry)
    (hrun : main (.dir es) = .normal out (some es')) :
    runEntry e = e ∧
    e ∉ es.filter isCandidate ∧
    es' = es.map runEntry ∧
    ∀ l ∈ out, lineName l ≠ some e.name := by
  have hcont : image_extensions.contains (pyLower (pySuffix e.name)) = false := by
    cases hb : image_extensions.contains (pyLower (pySuffix e.name)) with
    | false => rfl
    | true => exact absurd ((contains_ext_iff _).mp hb) hext
  have hc : isCandidate e = false := by
    unfold isCandidate
    rw [hcont, Bool.and_false]
  have hfs : es' = es.map runEntry := by
    have h2 := main_snd es
    rw [hrun] at h2
    exact Option.some.inj h2
  refine ⟨by simp [runEntry, hc], ?_, hfs, ?_⟩
  · intro hmem
    have := (List.mem_filter.mp hmem).2
    rw [hc] at this
    exact Bool.false_ne_true this
  · intro l hl hname
    have hout : out = (main (.dir es)).lines := by rw [hrun]; rfl
    rw [hout] at hl
    rcases out_lineName es l e.name hl hname with ⟨c, hcmem, hceq⟩
    have hcand : isCandidate c = true := (List.mem_filter.mp hcmem).2
    have hcfalse : isCandidate c = false := by
      unfold isCandidate
      rw [hceq, hcont, Bool.and_false]
    rw [hcand] at hcfalse
    exact Bool.noConfusion hcfalse

theorem C5_witness :
    runEntry entTxt = entTxt ∧
    entTxt ∉ ([entA, entTxt] : List Entry).filter isCandidate ∧
    lineName (OutLine.okFile "a.png" 800 600 2560 1600) ≠ some "b.txt" := by
  have h := C5_non_allowed_untouched [entA, entTxt] entTxt (by decide) (by decide)
    [.found 1, .resizingTo 2560 1600, .okFile "a.png" 800 600 2560 1600, .summary 1 1]
    [entA2, entTxt] (by decide)
  exact ⟨h.1, h.2.1, h.2.2.2 (OutLine.okFile "a.png" 800 600 2560 1600) (by decide)⟩

theorem length_filter_add_not (p : Entry → Bool) (l : List Entry) :
    (l.filter p).length + (l.filter (fun a => !(p a))).length = l.length := by
  induction l with
  | nil => rfl
  | cons a l ih =>
    cases h : p a <;>
      simp [List.filter_cons, h, ← ih, Nat.add_assoc, Nat.add_comm, Nat.add_left_comm]

/-- C6: a run that reaches processing ends with exactly one summary line
`N/M images resized`, where `N` counts the candidates whose resize
succeeded and `M` is the candidate total, and `N` never exceeds `M`. -/
theorem C6_summary_line (es : List Entry) (h : es.filter isCandidate ≠ []) :
    (main (.dir es)).lines.getLast? = some (.summary (okCount es) (candTotal es)) ∧
    (main (.dir es)).lines.filter isSummary = [.summary (okCount es) (candTotal es)] ∧
    okCount es ≤ candTotal es ∧
    render (.summary (okCount es) (candTotal es))
      = "\nCompleted: " ++ toString (okCount es) ++ "/" ++ toString (candTotal es)
          ++ " images resized" := by
  rw [main_fst es h]
  refine ⟨?_, ?_, ?_, rfl⟩
  · rw [List.append_assoc, ← List.append_assoc]
    exact List.getLast?_concat _
  · rw [List.filter_append, List.filter_append]
    have h1 : ([OutLine.found (candTotal es),
        OutLine.resizingTo TARGET_WIDTH TARGET_HEIGHT] : List OutLine).filter isSummary
        = [] := rfl
    have h2 : ((sortedCandidates es).map (fun c => (resize_image c).line)).filter
        isSummary = [] := by
      rw [List.filter_eq_nil_iff]
      intro l hl
      rcases List.mem_map.mp hl with ⟨c, _, hcl⟩
      rw [← hcl, isSummary_resize]
      exact Bool.noConfusion
    rw [h1, h2]
    rfl
  · exact List.length_filter_le _ _

theorem C6_witness :
    (main (.dir [entA, entB])).lines.getLast?
      = some (.summary (okCount [entA, entB]) (candTotal [entA, entB])) ∧
    okCount [entA, entB] = 1 ∧ candTotal [entA, entB] = 2 :=
  ⟨(C6_summary_line [entA, entB] (by decide)).1, by decide, by decide⟩

/-- C7: running the batch twice is idempotent with respect to pixel
dimensions: the directory contents after the second run have, entry by
entry, the same dimensions as after the first run (in fact the second
run reproduces the first run's contents exactly). -/
theorem C7_idempotent_dims (es es1 es2 : List Entry)
    (h1 : (main (.dir es)).dirAfter = some es1)
    (h2 : (main (.dir es1)).dirAfter = some es2) :
    es2.map entryDims = es1.map entryDims := by
  have e1 : es1 = es.map runEntry := by
    rw [main_snd] at h1
    exact (Option.some.inj h1).symm
  have e2 : es2 = es1.map runEntry := by
    rw [main_snd] at h2
    exact (Option.some.inj h2).symm
  have : es2 = es1 := by
    rw [e2, e1, List.map_map]
    exact List.map_congr_left fun a _ => runEntry_runEntry a
  rw [this]

theorem C7_witness :
    (main (.dir [entA])).dirAfter = some [entA2] ∧
    ([entA2] : List Entry).map entryDims = ([entA2] : List Entry).map entryDims :=
  ⟨by decide, C7_idempotent_dims [entA] [entA2] [entA2] (by decide) (by decide)⟩

/-- C9: a run that reaches processing handles each candidate exactly
once (the processed list is a permutation of the candidate set), in
filename-sorted order, and emits exactly one status line per candidate
between the two header lines and the final summary; the successes and
failures among the candidates add up to the candidate total. -/
theorem C9_each_candidate_once (es : List Entry)
    (h : es.filter isCandidate ≠ []) :
    (main (.dir es)).lines
      = [.found (candTotal es), .resizingTo TARGET_WIDTH TARGET_HEIGHT]
          ++ (sortedCandidates es).map (fun c => (resize_image c).line)
          ++ [.summary (okCount es) (candTotal es)] ∧
    (sortedCandidates es).Perm (es.filter isCandidate) ∧
    List.Sorted nameRel (sortedCandidates es) ∧
    okCount es + failCount es = candTotal es := by
  refine ⟨main_fst es h, List.perm_insertionSort nameRel _,
    List.sorted_insertionSort nameRel _, ?_⟩
  exact length_filter_add_not (fun c => (resize_image c).success) (es.filter isCandidate)

theorem C9_witness :
    (main (.dir [entA, entB])).lines
      = [.found (candTotal [entA, entB]), .resizingTo TARGET_WIDTH TARGET_HEIGHT]
          ++ (sortedCandidates [entA, entB]).map (fun c => (resize_image c).line)
          ++ [.summary (okCount [entA, entB]) (candTotal [entA, entB])] ∧
    (sortedCandidates [entA, entB]).Perm ([entA, entB].filter isCandidate) ∧
    List.Sorted nameRel (sortedCandidates [entA, entB]) ∧
    okCount [entA, entB] + failCount [entA, entB] = candTotal [entA, entB] :=
  C9_each_candidate_once [entA, entB] (by decide)

end ResizeScreenshots
